import Mathlib

set_option maxRecDepth 100000

/-!
# Verification of the dns-query wire codec and resolver

Shallow embedding of `src/dns.rs`, `src/dns/types.rs` and `src/lib.rs`.

Modelling conventions:
* Rust byte slices (`&[u8]`, `Vec<u8>`) are `List Nat`; each element stands
  for one byte (values are below 256 wherever the bytes originate from the
  program; theorems over arbitrary buffers state hypotheses only where
  byte-ness matters).
* Rust `String` values are modelled by their UTF-8 byte content
  (`List Nat`); `String::from_utf8_lossy` is modelled as the identity on
  bytes, which is exact on valid UTF-8 input and content-irrelevant for
  the error/termination claims.
* winnow's `IResult` is the inductive `PResult`: `ok remaining value`,
  `err e` (covering both `ErrMode::Backtrack` and `ErrMode::Cut`, which no
  combinator in this program distinguishes: there is no alternation), and
  `panic` for a Rust panic (out-of-bounds slice index).
* machine integers are `Nat` with `% 256` / `% 65536` where wrap-around
  matters (`substr.len() as u8`).
-/

/-- Decode / parse error kinds.
`cutVerify` is `ErrMode::Cut(Error{kind: Verify})` (pointer-depth bound),
`cutFail` is `ErrMode::Cut(Error{kind: Fail})` (pointer offset out of
bounds), `backtrack` is any ordinary `ErrMode::Backtrack` failure
(truncated input, failed `try_map`, unknown type/class code, ...). -/
inductive DErr where
  | backtrack
  | cutVerify
  | cutFail
deriving DecidableEq, Repr

/-- Result of a winnow parser over a byte list: the remaining input and the
value, an error, or a Rust panic. -/
inductive PResult (α : Type) where
  | ok (remaining : List Nat) (value : α)
  | err (e : DErr)
  | panic
deriving DecidableEq, Repr

/-- Result of a top-level fallible operation (`color_eyre::Result`),
with `panic` again denoting a Rust panic. -/
inductive DResult (α : Type) where
  | ok (value : α)
  | err (e : DErr)
  | panic
deriving DecidableEq, Repr

def PResult.isErr {α : Type} : PResult α → Bool
  | .err _ => true
  | _ => false

def DResult.isErr {α : Type} : DResult α → Bool
  | .err _ => true
  | _ => false

/-- `winnow::binary::u8`: one byte. -/
def parse_u8 : List Nat → PResult Nat
  | [] => .err .backtrack
  | b :: rest => .ok rest b

/-- `winnow::binary::be_u16`: big-endian 16-bit integer. -/
def parse_be_u16 : List Nat → PResult Nat
  | a :: b :: rest => .ok rest (a * 256 + b)
  | _ => .err .backtrack

/-- `winnow::binary::be_u32`: big-endian 32-bit integer. -/
def parse_be_u32 : List Nat → PResult Nat
  | a :: b :: c :: d :: rest => .ok rest (((a * 256 + b) * 256 + c) * 256 + d)
  | _ => .err .backtrack

/-- `u16::to_be_bytes` on a 16-bit value. -/
def be16 (v : Nat) : List Nat := [v / 256 % 256, v % 256]

/-- `QueryType` from `src/dns/types.rs`: the closed set of supported
record types. -/
inductive QueryType where
  | A | Ns | Md | Mf | Cname | Soa | Mb | Mg | Mr | Null
  | Wks | Ptr | Hinfo | Minfo | Mx | Txt | Aaaa
deriving DecidableEq, Repr

/-- The `#[repr(u16)]` discriminants of `QueryType` (`ty as u16`). -/
def QueryType.toCode : QueryType → Nat
  | .A => 1 | .Ns => 2 | .Md => 3 | .Mf => 4 | .Cname => 5 | .Soa => 6
  | .Mb => 7 | .Mg => 8 | .Mr => 9 | .Null => 10 | .Wks => 11 | .Ptr => 12
  | .Hinfo => 13 | .Minfo => 14 | .Mx => 15 | .Txt => 16 | .Aaaa => 28

/-- `TryFrom<u16> for QueryType`: `none` is the `Unknown` error. -/
def QueryType.ofCode : Nat → Option QueryType
  | 1 => some .A | 2 => some .Ns | 3 => some .Md | 4 => some .Mf
  | 5 => some .Cname | 6 => some .Soa | 7 => some .Mb | 8 => some .Mg
  | 9 => some .Mr | 10 => some .Null | 11 => some .Wks | 12 => some .Ptr
  | 13 => some .Hinfo | 14 => some .Minfo | 15 => some .Mx | 16 => some .Txt
  | 28 => some .Aaaa
  | _ => none

/-- `ClassType` from `src/dns/types.rs`. -/
inductive ClassType where
  | IN | CS | CH | HS
deriving DecidableEq, Repr

/-- The `#[repr(u16)]` discriminants of `ClassType`. -/
def ClassType.toCode : ClassType → Nat
  | .IN => 1 | .CS => 2 | .CH => 3 | .HS => 4

/-- `TryFrom<u16> for ClassType`: `none` is the `Unknown` error. -/
def ClassType.ofCode : Nat → Option ClassType
  | 1 => some .IN | 2 => some .CS | 3 => some .CH | 4 => some .HS
  | _ => none

/-- An IPv4 address (`std::net::Ipv4Addr`), four octets. -/
structure Ipv4 where
  o1 : Nat
  o2 : Nat
  o3 : Nat
  o4 : Nat
deriving DecidableEq, Repr

/-- `QueryResponse` from `src/dns/types.rs`: the type-tagged decoded
payload of a resource record.  Names and text are byte lists. -/
inductive QueryResponse where
  | A (addr : Ipv4)
  | Ns (name : List Nat)
  | Md | Mf
  | Cname (name : List Nat)
  | Soa | Mb | Mg | Mr | Null | Wks | Ptr | Hinfo | Minfo | Mx
  | Txt (text : List Nat)
  | Aaaa (bytes : List Nat)
deriving DecidableEq, Repr

/-- `From<&QueryResponse> for QueryType`. -/
def QueryResponse.toQueryType : QueryResponse → QueryType
  | .A _ => .A | .Ns _ => .Ns | .Md => .Md | .Mf => .Mf
  | .Cname _ => .Cname | .Soa => .Soa | .Mb => .Mb | .Mg => .Mg
  | .Mr => .Mr | .Null => .Null | .Wks => .Wks | .Ptr => .Ptr
  | .Hinfo => .Hinfo | .Minfo => .Minfo | .Mx => .Mx | .Txt _ => .Txt
  | .Aaaa _ => .Aaaa

/-!
## Name codec (`decode_helper`, `decode_dns_name`, `encode_dns_name`)

The Rust `decode_helper(bytes, full_input, depth)` recurses with `depth + 1`
and returns `Cut(Verify)` as soon as `depth > MAX_PTR_TRAVERSALS` (126); it
therefore recurses at most `127 - depth` more times.  The embedding
`decode_fuel fuel bytes full` is the same function under the change of
variable `fuel = 127 - depth` (so `depth > 126` is exactly `fuel = 0`),
which makes the recursion structural.
-/

def MAX_PTR_TRAVERSALS : Nat := 126

def decode_fuel : Nat → List Nat → List Nat → PResult (List Nat)
  | 0, _, _ => .err .cutVerify
  | _ + 1, [], _ => .err .backtrack
  | fuel + 1, head :: remaining, full =>
    if head &&& 192 = 192 then
      -- compression pointer: this byte's low 6 bits and the next byte
      match remaining with
      | [] => .err .backtrack
      | next :: remaining2 =>
        let index := (head &&& 63) * 256 + next
        if index > full.length then
          .err .cutFail
        else
          match decode_fuel fuel (full.drop index) full with
          | .ok _ output => .ok remaining2 output
          | .err e => .err e
          | .panic => .panic
    else if head = 0 then
      -- end of input
      .ok remaining []
    else
      -- a literal label of `head` bytes
      if remaining.length < head then .err .backtrack
      else
        let x := remaining.take head
        match decode_fuel fuel (remaining.drop head) full with
        | .ok rem other =>
          if other ≠ [] then .ok rem (x ++ 46 :: other) else .ok rem x
        | .err e => .err e
        | .panic => .panic

/-- `decode_helper(bytes, full_input, depth)` from `src/dns.rs`. -/
def decode_helper (bytes full : List Nat) (depth : Nat) : PResult (List Nat) :=
  decode_fuel (MAX_PTR_TRAVERSALS + 1 - depth) bytes full

/-- `decode_dns_name(bytes, full_input)`: `decode_helper` at depth 0. -/
def decode_dns_name (bytes full : List Nat) : PResult (List Nat) :=
  decode_helper bytes full 0

/-- Rust `str::split('.')` on UTF-8 bytes (the dot byte 46 cannot occur
inside a multi-byte UTF-8 sequence, so byte-level splitting agrees with
character-level splitting). -/
def splitDot : List Nat → List (List Nat)
  | [] => [[]]
  | b :: bs =>
    if b = 46 then [] :: splitDot bs
    else
      match splitDot bs with
      | h :: t => (b :: h) :: t
      | [] => [[b]]

/-- Dot-joining of labels, the inverse view of `splitDot`. -/
def joinDot : List (List Nat) → List Nat
  | [] => []
  | [l] => l
  | l :: ls => l ++ 46 :: joinDot ls

/-- `encode_dns_name(name)` from `src/dns.rs`: for each dot-separated
segment, push the segment length as `u8` (`len as u8`, i.e. mod 256), then
the segment bytes; finally push a zero terminator. -/
def encode_dns_name (name : List Nat) : List Nat :=
  ((splitDot name).foldl (fun out substr => out ++ [substr.length % 256] ++ substr) []) ++ [0]

/-!
## Wire codec (`Header`, `Question`, `Record`, `Response`, `build_query`)
-/

/-- A DNS header (`Header` in `src/dns.rs`). -/
structure Header where
  id : Nat
  flags : Nat
  num_questions : Nat
  num_answers : Nat
  num_authorities : Nat
  num_additionals : Nat
deriving DecidableEq, Repr

/-- `Header::parse`: six consecutive big-endian 16-bit integers. -/
def Header.parse (input : List Nat) : PResult Header :=
  match parse_be_u16 input with
  | .ok r1 id =>
    match parse_be_u16 r1 with
    | .ok r2 flags =>
      match parse_be_u16 r2 with
      | .ok r3 nq =>
        match parse_be_u16 r3 with
        | .ok r4 na =>
          match parse_be_u16 r4 with
          | .ok r5 nauth =>
            match parse_be_u16 r5 with
            | .ok r6 nadd => .ok r6 ⟨id, flags, nq, na, nauth, nadd⟩
            | .err e => .err e
            | .panic => .panic
          | .err e => .err e
          | .panic => .panic
        | .err e => .err e
        | .panic => .panic
      | .err e => .err e
      | .panic => .panic
    | .err e => .err e
    | .panic => .panic
  | .err e => .err e
  | .panic => .panic

/-- `Header`'s `AsBytes` impl: the six fields as big-endian 16-bit
integers, in declaration order. -/
def Header.asBytes (h : Header) : List Nat :=
  be16 h.id ++ be16 h.flags ++ be16 h.num_questions ++ be16 h.num_answers ++
    be16 h.num_authorities ++ be16 h.num_additionals

/-- A DNS question (`Question` in `src/dns.rs`); the name is the UTF-8
byte content of the Rust `String`. -/
structure Question where
  name : List Nat
  ty : QueryType
  cls : ClassType
deriving DecidableEq, Repr

/-- `Question::parse`: decoded name, then type code and class code, each
validated through `try_map` (unknown codes fail). -/
def Question.parse (input full : List Nat) : PResult Question :=
  match decode_dns_name input full with
  | .ok r1 name =>
    match parse_be_u16 r1 with
    | .ok r2 tcode =>
      match QueryType.ofCode tcode with
      | some ty =>
        match parse_be_u16 r2 with
        | .ok r3 ccode =>
          match ClassType.ofCode ccode with
          | some cls => .ok r3 ⟨name, ty, cls⟩
          | none => .err .backtrack
        | .err e => .err e
        | .panic => .panic
      | none => .err .backtrack
    | .err e => .err e
    | .panic => .panic
  | .err e => .err e
  | .panic => .panic

/-- `Question`'s `AsBytes` impl. -/
def Question.asBytes (q : Question) : List Nat :=
  encode_dns_name q.name ++ be16 q.ty.toCode ++ be16 q.cls.toCode

/-- `build_query(domain_name, record_type, id)` from `src/dns.rs`: a header
with the given id, flags 0x0000, one question and zero other counts,
followed by the single question with class `IN`. -/
def build_query (domain_name : List Nat) (record_type : QueryType) (id : Nat) : List Nat :=
  Header.asBytes ⟨id, 0, 1, 0, 0, 0⟩ ++ Question.asBytes ⟨domain_name, record_type, .IN⟩

/-- A resource record (`Record` in `src/dns.rs`). -/
structure Record where
  name : List Nat
  ty : QueryResponse
  cls : ClassType
  ttl : Nat
  data : List Nat
deriving DecidableEq, Repr

/-- The record-payload decoding inside `Record::parse`'s `try_map` closure.
For `A` the Rust code indexes `x.4[0] .. x.4[3]` without a length check:
a payload shorter than 4 bytes panics (out-of-bounds index) and a longer
payload succeeds using only the first four bytes.  For `Aaaa`,
`x.4.try_into()` demands exactly 16 bytes, otherwise the closure returns
an error.  `Ns`/`Cname` decode their payload as a name against the full
message buffer. -/
def mk_query_response (ty : QueryType) (data full : List Nat) : DResult QueryResponse :=
  match ty with
  | .A =>
    match data with
    | a :: b :: c :: d :: _ => .ok (.A ⟨a, b, c, d⟩)
    | _ => .panic
  | .Ns =>
    match decode_dns_name data full with
    | .ok _ name => .ok (.Ns name)
    | .err _ => .err .backtrack
    | .panic => .panic
  | .Md => .ok .Md
  | .Mf => .ok .Mf
  | .Cname =>
    match decode_dns_name data full with
    | .ok _ name => .ok (.Cname name)
    | .err _ => .err .backtrack
    | .panic => .panic
  | .Soa => .ok .Soa
  | .Mb => .ok .Mb
  | .Mg => .ok .Mg
  | .Mr => .ok .Mr
  | .Null => .ok .Null
  | .Wks => .ok .Wks
  | .Ptr => .ok .Ptr
  | .Hinfo => .ok .Hinfo
  | .Minfo => .ok .Minfo
  | .Mx => .ok .Mx
  | .Txt => .ok (.Txt data)
  | .Aaaa => if data.length = 16 then .ok (.Aaaa data) else .err .backtrack

/-- `Record::parse`: name, type code, class code, 32-bit TTL, then
`length_data(be_u16)` (a declared length followed by exactly that many
payload bytes), and finally the payload decoding of the `try_map`
closure. -/
def Record.parse (input full : List Nat) : PResult Record :=
  match decode_dns_name input full with
  | .ok r1 name =>
    match parse_be_u16 r1 with
    | .ok r2 tcode =>
      match QueryType.ofCode tcode with
      | some ty =>
        match parse_be_u16 r2 with
        | .ok r3 ccode =>
          match ClassType.ofCode ccode with
          | some cls =>
            match parse_be_u32 r3 with
            | .ok r4 ttl =>
              match parse_be_u16 r4 with
              | .ok r5 len =>
                if r5.length < len then .err .backtrack
                else
                  match mk_query_response ty (r5.take len) full with
                  | .ok qr => .ok (r5.drop len) ⟨name, qr, cls, ttl, r5.take len⟩
                  | .err e => .err e
                  | .panic => .panic
              | .err e => .err e
              | .panic => .panic
            | .err e => .err e
            | .panic => .panic
          | none => .err .backtrack
        | .err e => .err e
        | .panic => .panic
      | none => .err .backtrack
    | .err e => .err e
    | .panic => .panic
  | .err e => .err e
  | .panic => .panic

/-- `winnow::combinator::repeat(n, parser)`: exactly `n` repetitions,
collected in order; any failure fails the whole repetition. -/
def prepeat {α : Type} (n : Nat) (p : List Nat → PResult α) (input : List Nat) :
    PResult (List α) :=
  match n with
  | 0 => .ok input []
  | n + 1 =>
    match p input with
    | .ok rem a =>
      match prepeat n p rem with
      | .ok rem2 as' => .ok rem2 (a :: as')
      | .err e => .err e
      | .panic => .panic
    | .err e => .err e
    | .panic => .panic

/-- A decoded DNS message (`Response` in `src/dns.rs`). -/
structure Response where
  header : Header
  questions : List Question
  answers : List Record
  authorities : List Record
  additionals : List Record
deriving DecidableEq, Repr

/-- `Response::parse`: parse the header, then — counts taken from the
header — that many questions, answers, authorities and additionals, each
resource record resolved against the original full buffer; winnow's
top-level `Parser::parse` requires the input to be fully consumed, so
trailing bytes are an error. -/
def Response.parse (input : List Nat) : DResult Response :=
  match Header.parse input with
  | .ok remaining header =>
    match prepeat header.num_questions (fun x => Question.parse x input) remaining with
    | .ok rq questions =>
      match prepeat header.num_answers (fun x => Record.parse x input) rq with
      | .ok ra answers =>
        match prepeat header.num_authorities (fun x => Record.parse x input) ra with
        | .ok rauth authorities =>
          match prepeat header.num_additionals (fun x => Record.parse x input) rauth with
          | .ok radd additionals =>
            if radd = [] then .ok ⟨header, questions, answers, authorities, additionals⟩
            else .err .backtrack
          | .err e => .err e
          | .panic => .panic
        | .err e => .err e
        | .panic => .panic
      | .err e => .err e
      | .panic => .panic
    | .err e => .err e
    | .panic => .panic
  | .err e => .err e
  | .panic => .panic

/-!
## Resolver engine (`resolve` in `src/lib.rs`)

The transport round trip (`query`: build, send over UDP, receive, decode)
is abstracted as an oracle from `(nameserver, name, type)` to a decode
result; an oracle error models both a transport failure and a decode
failure, either of which `resolve` propagates with `?`.  The Rust loop has
no iteration bound; the `fuel` parameter is an artifact of totality and is
only ever decremented when the code would iterate again, so conclusions
about a single iteration do not depend on it. -/

inductive ResolveErr where
  | queryFailed
  | unableToResolve
  | unexpectedRecordType
  | outOfFuel
deriving DecidableEq, Repr

/-- The answer-section test of `resolve`: the record's declared type
converted via `From<&QueryResponse>` equals the target type. -/
def answer_matches (target : QueryType) (r : Record) : Bool :=
  r.ty.toQueryType = target

/-- The additional-section test of `resolve`: an `A` record's address. -/
def additional_a (r : Record) : Option Ipv4 :=
  match r.ty with
  | .A ip => some ip
  | _ => none

/-- The authority-section test of `resolve`: an `NS` record's name. -/
def authority_ns (r : Record) : Option (List Nat) :=
  match r.ty with
  | .Ns n => some n
  | _ => none

/-- The delegation-following loop of `resolve(domain_name, record_type)`:
1. query the current nameserver; 2. first answer of the target type wins;
3. else first `A` record in additionals becomes the next nameserver;
4. else first `NS` name in authorities is itself resolved (from the given
root) and its address becomes the next nameserver; 5. else fail with
"Unable to resolve query!". -/
def resolve_loop (oracle : Ipv4 → List Nat → QueryType → DResult Response) (root : Ipv4) :
    Nat → Ipv4 → List Nat → QueryType → Except ResolveErr Record
  | 0, _, _, _ => .error .outOfFuel
  | fuel + 1, ns, nm, ty =>
    match oracle ns nm ty with
    | .err _ => .error .queryFailed
    | .panic => .error .queryFailed
    | .ok resp =>
      match resp.answers.find? (answer_matches ty) with
      | some r => .ok r
      | none =>
        match resp.additionals.findSome? additional_a with
        | some ip => resolve_loop oracle root fuel ip nm ty
        | none =>
          match resp.authorities.findSome? authority_ns with
          | some nsname =>
            match resolve_loop oracle root fuel root nsname .A with
            | .error e => .error e
            | .ok rec =>
              match rec.ty with
              | .A ip => resolve_loop oracle root fuel ip nm ty
              | _ => .error .unexpectedRecordType
          | none => .error .unableToResolve

/-- The label blocks of the name encoding: for each label its length byte
(`len as u8`) followed by its bytes.  `encode_dns_name` is this plus the
final zero terminator (`encode_dns_name_eq`). -/
def encLabels : List (List Nat) → List Nat
  | [] => []
  | l :: ls => (l.length % 256 :: l) ++ encLabels ls

/-- Names on which the encoder and decoder are mutually faithful: at least
one byte per dot-separated label, at most 191 bytes per label (192 to 255
would wrap into the compression-pointer tag bits), and at most 126 labels
(the decoder's traversal-depth bound counts labels as well as pointer
hops). -/
def GoodName (name : List Nat) : Prop :=
  (∀ l ∈ splitDot name, l ≠ [] ∧ l.length ≤ 191) ∧ (splitDot name).length ≤ 126

instance (name : List Nat) : Decidable (GoodName name) := by
  unfold GoodName; infer_instance

/-- Valid DNS domain names, the hypothesis of the query/decode round trip:
nonempty labels of at most 63 bytes (the classic label limit), at most 126
of them. -/
def ValidDnsName (name : List Nat) : Prop :=
  (∀ l ∈ splitDot name, l ≠ [] ∧ l.length ≤ 63) ∧ (splitDot name).length ≤ 126

instance (name : List Nat) : Decidable (ValidDnsName name) := by
  unfold ValidDnsName; infer_instance

/-- The UTF-8 bytes of `"google.com"`. -/
def googleName : List Nat := [103, 111, 111, 103, 108, 101, 46, 99, 111, 109]

/-- A decoded message with all-zero header and empty sections, the decode
of twelve zero bytes. -/
def emptyResponse : Response := ⟨⟨0, 0, 0, 0, 0, 0⟩, [], [], [], []⟩

/-!
## Helper lemmas
-/

theorem land192_ne (n : Nat) (h : n ≤ 191) : n &&& 192 ≠ 192 := by
  have := Nat.and_le_left (n := n) (m := 192)
  omega

theorem splitDot_ne_nil (bs : List Nat) : splitDot bs ≠ [] := by
  cases bs with
  | nil => simp [splitDot]
  | cons b bs =>
    simp only [splitDot]
    split
    · simp
    · split <;> simp

theorem joinDot_single (l : List Nat) : joinDot [l] = l := rfl

theorem joinDot_cons_cons (l x : List Nat) (xs : List (List Nat)) :
    joinDot (l :: x :: xs) = l ++ 46 :: joinDot (x :: xs) := rfl

theorem joinDot_splitDot (bs : List Nat) : joinDot (splitDot bs) = bs := by
  induction bs with
  | nil => rfl
  | cons b bs ih =>
    by_cases hb : b = 46
    · subst hb
      have hsplit : splitDot (46 :: bs) = [] :: splitDot bs := by simp [splitDot]
      rw [hsplit]
      cases h : splitDot bs with
      | nil => exact absurd h (splitDot_ne_nil bs)
      | cons x xs =>
        rw [joinDot_cons_cons, ← h, ih]
        rfl
    · cases h : splitDot bs with
      | nil => exact absurd h (splitDot_ne_nil bs)
      | cons x xs =>
        have hsplit : splitDot (b :: bs) = (b :: x) :: xs := by simp [splitDot, hb, h]
        rw [hsplit]
        cases xs with
        | nil =>
          have hx : bs = x := by rw [← ih, h, joinDot_single]
          rw [joinDot_single, hx]
        | cons y ys =>
          have hx : bs = x ++ 46 :: joinDot (y :: ys) := by rw [← ih, h, joinDot_cons_cons]
          rw [joinDot_cons_cons, hx]
          rfl

theorem joinDot_ne_nil (ls : List (List Nat)) (h : ls ≠ [])
    (h2 : ∀ l ∈ ls, l ≠ []) : joinDot ls ≠ [] := by
  cases ls with
  | nil => exact absurd rfl h
  | cons x xs =>
    have hx : x ≠ [] := h2 x (List.mem_cons_self x xs)
    cases xs with
    | nil => simpa [joinDot_single] using hx
    | cons y ys =>
      rw [joinDot_cons_cons]
      cases x with
      | nil => exact absurd rfl hx
      | cons a as' => simp

theorem encode_dns_name_eq (name : List Nat) :
    encode_dns_name name = encLabels (splitDot name) ++ [0] := by
  have key : ∀ (L : List (List Nat)) (acc : List Nat),
      L.foldl (fun out substr => out ++ [substr.length % 256] ++ substr) acc =
        acc ++ encLabels L := by
    intro L
    induction L with
    | nil => intro acc; simp [encLabels]
    | cons l ls ih =>
      intro acc
      simp only [List.foldl_cons, encLabels, ih]
      simp
  unfold encode_dns_name
  rw [key]
  simp

theorem decode_fuel_encLabels (L : List (List Nat)) (rest full : List Nat) :
    ∀ fuel, (∀ l ∈ L, l ≠ [] ∧ l.length ≤ 191) → L.length < fuel →
    decode_fuel fuel (encLabels L ++ 0 :: rest) full = .ok rest (joinDot L) := by
  induction L with
  | nil =>
    intro fuel _ hfuel
    cases fuel with
    | zero => exact absurd hfuel (Nat.not_lt_zero _)
    | succ fuel =>
      show decode_fuel (fuel + 1) (0 :: rest) full = .ok rest (joinDot [])
      simp [decode_fuel, joinDot]
  | cons l ls ih =>
    intro fuel hl hfuel
    obtain ⟨hne, hlen⟩ := hl l (List.mem_cons_self l ls)
    have hls : ∀ x ∈ ls, x ≠ [] ∧ x.length ≤ 191 :=
      fun x hx => hl x (List.mem_cons_of_mem _ hx)
    cases fuel with
    | zero => exact absurd hfuel (Nat.not_lt_zero _)
    | succ fuel =>
      have hmod : l.length % 256 = l.length := Nat.mod_eq_of_lt (by omega)
      have hassoc : encLabels (l :: ls) ++ 0 :: rest =
          l.length % 256 :: (l ++ (encLabels ls ++ 0 :: rest)) := by
        simp [encLabels, List.append_assoc]
      rw [hassoc, hmod]
      have hlen0 : l.length ≠ 0 := by
        cases l with
        | nil => exact absurd rfl hne
        | cons a as' => simp
      simp only [decode_fuel]
      rw [if_neg (land192_ne _ hlen), if_neg hlen0,
        if_neg (by simp [List.length_append])]
      rw [List.take_left, List.drop_left]
      rw [ih fuel hls (by simpa using Nat.lt_of_succ_lt_succ hfuel)]
      cases ls with
      | nil => simp [joinDot_single, joinDot]
      | cons y ys =>
        have hjoin : joinDot (y :: ys) ≠ [] :=
          joinDot_ne_nil _ (by simp) (fun x hx => (hls x hx).1)
        simp only [joinDot_cons_cons]
        simp [hjoin]

theorem parse_be16_be16 (v : Nat) (r : List Nat) (h : v < 65536) :
    parse_be_u16 (be16 v ++ r) = .ok r v := by
  simp only [be16, List.cons_append, List.nil_append, parse_be_u16]
  congr 1
  omega

theorem queryTypeCode_lt (ty : QueryType) : ty.toCode < 65536 := by
  cases ty <;> decide

theorem queryType_ofCode_toCode (ty : QueryType) : QueryType.ofCode ty.toCode = some ty := by
  cases ty <;> rfl

theorem classTypeCode_lt (c : ClassType) : c.toCode < 65536 := by
  cases c <;> decide

theorem classType_ofCode_toCode (c : ClassType) : ClassType.ofCode c.toCode = some c := by
  cases c <;> rfl

theorem header_parse_asBytes (h : Header) (rest : List Nat)
    (h1 : h.id < 65536) (h2 : h.flags < 65536) (h3 : h.num_questions < 65536)
    (h4 : h.num_answers < 65536) (h5 : h.num_authorities < 65536)
    (h6 : h.num_additionals < 65536) :
    Header.parse (h.asBytes ++ rest) = .ok rest h := by
  obtain ⟨id, flags, nq, na, nauth, nadd⟩ := h
  simp only at h1 h2 h3 h4 h5 h6
  simp only [Header.asBytes, List.append_assoc]
  simp only [Header.parse, parse_be16_be16, h1, h2, h3, h4, h5, h6]

theorem decode_dns_name_encLabels (L : List (List Nat)) (rest full : List Nat)
    (hl : ∀ l ∈ L, l ≠ [] ∧ l.length ≤ 191) (hc : L.length ≤ 126) :
    decode_dns_name (encLabels L ++ 0 :: rest) full = .ok rest (joinDot L) := by
  show decode_fuel (MAX_PTR_TRAVERSALS + 1 - 0) (encLabels L ++ 0 :: rest) full = _
  exact decode_fuel_encLabels L rest full _ hl (by simp [MAX_PTR_TRAVERSALS]; omega)

theorem question_parse_asBytes (q : Question) (rest full : List Nat)
    (hname : GoodName q.name) :
    Question.parse (q.asBytes ++ rest) full = .ok rest q := by
  obtain ⟨name, ty, cls⟩ := q
  obtain ⟨hl, hc⟩ := hname
  have henc : Question.asBytes ⟨name, ty, cls⟩ ++ rest =
      encLabels (splitDot name) ++ 0 :: (be16 ty.toCode ++ (be16 cls.toCode ++ rest)) := by
    simp only [Question.asBytes, encode_dns_name_eq, List.append_assoc]
    rfl
  rw [henc]
  have hdec := decode_dns_name_encLabels (splitDot name)
    (be16 ty.toCode ++ (be16 cls.toCode ++ rest)) full hl hc
  rw [joinDot_splitDot] at hdec
  simp only [Question.parse, hdec, parse_be16_be16, queryTypeCode_lt,
    classTypeCode_lt, queryType_ofCode_toCode, classType_ofCode_toCode]

theorem prepeat_length {α : Type} (n : Nat) (p : List Nat → PResult α) :
    ∀ input rem l, prepeat n p input = .ok rem l → l.length = n := by
  induction n with
  | zero =>
    intro input rem l h
    simp only [prepeat] at h
    cases h
    rfl
  | succ n ih =>
    intro input rem l h
    simp only [prepeat] at h
    cases hp : p input with
    | ok rem0 a =>
      rw [hp] at h
      dsimp only at h
      cases hq : prepeat n p rem0 with
      | ok rem2 as' =>
        rw [hq] at h
        dsimp only at h
        cases h
        simp [ih _ _ _ hq]
      | err e => rw [hq] at h; exact PResult.noConfusion h
      | panic => rw [hq] at h; exact PResult.noConfusion h
    | err e => rw [hp] at h; exact PResult.noConfusion h
    | panic => rw [hp] at h; exact PResult.noConfusion h

/-!
## Embedding checks

The unit tests of `src/dns.rs` (`test_pack_header`, `test_build_query`,
`test_decode_name`, `test_parse_question`, `test_parse_response`),
re-checked against the embedding.
-/

theorem check_pack_header :
    Header.asBytes ⟨0x1314, 0, 1, 0, 0, 0⟩ =
      [0x13, 0x14, 0, 0, 0, 1, 0, 0, 0, 0, 0, 0] := by decide

theorem check_build_query :
    build_query googleName .A 1 =
      [0, 1, 0, 0, 0, 1, 0, 0, 0, 0, 0, 0,
       6, 103, 111, 111, 103, 108, 101, 3, 99, 111, 109, 0, 0, 1, 0, 1] := by decide

theorem check_decode_name :
    decode_dns_name [2, 112, 105, 0] [2, 112, 105, 0] = .ok [] [112, 105] := by decide

theorem check_parse_question :
    Question.parse [2, 112, 105, 4, 104, 111, 108, 101, 0, 0, 1, 0, 1]
        [2, 112, 105, 4, 104, 111, 108, 101, 0, 0, 1, 0, 1] =
      .ok [] ⟨[112, 105, 46, 104, 111, 108, 101], .A, .IN⟩ := by decide

theorem check_parse_response :
    Response.parse
        [0, 1, 0x85, 0x80, 0, 1, 0, 1, 0, 0, 0, 0,
         2, 112, 105, 4, 104, 111, 108, 101, 0, 0, 1, 0, 1,
         0xc0, 0x0c, 0, 1, 0, 1, 0, 0, 0, 0, 0, 4, 192, 168, 2, 102] =
      .ok ⟨⟨1, 0x8580, 1, 1, 0, 0⟩,
        [⟨[112, 105, 46, 104, 111, 108, 101], .A, .IN⟩],
        [⟨[112, 105, 46, 104, 111, 108, 101], .A ⟨192, 168, 2, 102⟩, .IN, 0,
          [192, 168, 2, 102]⟩],
        [], []⟩ := by decide

/-!
## Claims
-/

/-- C1 counterexample: `build_query("google.com", A, 1)` does NOT produce
the byte sequence claimed by the spec — the claimed bytes carry flags
`01 00`, but `build_query` hardcodes `flags: 0x0000` (the repository's own
`test_build_query` expects `00 00` in bytes 2..3). -/
theorem c1_counterexample :
    build_query googleName .A 1 ≠
      [0x00, 0x01, 0x01, 0x00, 0x00, 0x01, 0x00, 0x00, 0x00, 0x00, 0x00, 0x00,
       6, 103, 111, 111, 103, 108, 101, 3, 99, 111, 109, 0, 0x00, 0x01, 0x00, 0x01] := by
  decide

/-- C1 (amended): encoding a query for `"google.com"` with record type A
and transaction id 1 produces exactly
`00 01 00 00 00 01 00 00 00 00 00 00 06 google 03 com 00 00 01 00 01` —
id in the first two bytes, flags `00 00` (not `01 00`), one question, zero
answers/authorities/additionals, uncompressed two-label name, type code 1,
class code 1. -/
theorem c1_build_query_bytes :
    build_query googleName .A 1 =
      [0x00, 0x01, 0x00, 0x00, 0x00, 0x01, 0x00, 0x00, 0x00, 0x00, 0x00, 0x00,
       6, 103, 111, 111, 103, 108, 101, 3, 99, 111, 109, 0, 0x00, 0x01, 0x00, 0x01] := by
  decide

/-- C2 (code bug): the claim says an A record's rdata decodes to an IPv4
address exactly when it is 4 bytes and yields a length-mismatch error
otherwise.  The code instead indexes `x.4[0]..x.4[3]` unchecked: on the
concrete record `a/IN/A` with declared rdata length 3 it panics
(out-of-bounds slice index), and with declared length 5 it succeeds,
silently using only the first four payload bytes. -/
theorem c2_a_record_rdata_behavior :
    Record.parse [1, 97, 0, 0, 1, 0, 1, 0, 0, 0, 0, 0, 3, 9, 9, 9]
        [1, 97, 0, 0, 1, 0, 1, 0, 0, 0, 0, 0, 3, 9, 9, 9] = .panic ∧
    Record.parse [1, 97, 0, 0, 1, 0, 1, 0, 0, 0, 0, 0, 5, 1, 2, 3, 4, 5]
        [1, 97, 0, 0, 1, 0, 1, 0, 0, 0, 0, 0, 5, 1, 2, 3, 4, 5] =
      .ok [] ⟨[97], .A ⟨1, 2, 3, 4⟩, .IN, 0, [1, 2, 3, 4, 5]⟩ := by
  constructor <;> decide

/-- C3: name decoding is depth-bounded, hence total.  Whenever the
traversal depth exceeds `MAX_PTR_TRAVERSALS` (126), `decode_helper`
returns the `Cut(Verify)` bounded-traversal error immediately; in
particular, on the buffer `c0 02 c0 00` — a pointer at offset 0 to offset
2 whose pointer points back to offset 0 — `decode_dns_name` returns that
error instead of hanging or overflowing.  (In this embedding the decoder
is total by construction: `decode_fuel` is structurally recursive on
`127 - depth`.) -/
theorem c3_decode_depth_bounded :
    (∀ bytes full depth, MAX_PTR_TRAVERSALS < depth →
      decode_helper bytes full depth = .err .cutVerify) ∧
    decode_dns_name [0xc0, 0x02, 0xc0, 0x00] [0xc0, 0x02, 0xc0, 0x00] =
      .err .cutVerify := by
  constructor
  · intro bytes full depth h
    unfold decode_helper
    have hm : MAX_PTR_TRAVERSALS = 126 := rfl
    rw [show MAX_PTR_TRAVERSALS + 1 - depth = 0 from by omega]
    rfl
  · decide

/-- C3 witness: at depth 127 on a concrete buffer the decoder fails with
the bounded-traversal error. -/
theorem c3_decode_depth_bounded_witness :
    decode_helper [0] [0] 127 = .err .cutVerify :=
  c3_decode_depth_bounded.1 [0] [0] 127 (by decide)

/-- C8: any compression pointer whose 14-bit target offset is at least
the length of the full message buffer makes `decode_helper` (and hence
`decode_dns_name`, which is depth 0) return a decode error — it never
succeeds and never panics.  This covers the boundary case
`offset = length` exactly: the code's bounds check uses `>`, but decoding
at the empty suffix then fails on the next byte read. -/
theorem c8_pointer_offset_out_of_range (head next : Nat) (rest full : List Nat)
    (depth : Nat) (hptr : head &&& 192 = 192)
    (hoff : full.length ≤ (head &&& 63) * 256 + next) :
    (decode_helper (head :: next :: rest) full depth).isErr = true := by
  unfold decode_helper
  cases hf : MAX_PTR_TRAVERSALS + 1 - depth with
  | zero => rfl
  | succ fuel =>
    simp only [decode_fuel]
    rw [if_pos hptr]
    by_cases hgt : (head &&& 63) * 256 + next > full.length
    · rw [if_pos hgt]
      rfl
    · rw [if_neg hgt]
      have heq : (head &&& 63) * 256 + next = full.length := by omega
      rw [heq, List.drop_length]
      cases fuel <;> rfl

/-- C8 witness: a pointer whose offset equals the buffer length exactly
(the boundary case) produces a decode error. -/
theorem c8_pointer_offset_out_of_range_witness :
    (decode_helper [0xc0, 4, 7] [0xc0, 4, 0, 0] 0).isErr = true :=
  c8_pointer_offset_out_of_range 0xc0 4 [7] [0xc0, 4, 0, 0] 0 (by decide) (by decide)

/-- C10: `encode_dns_name` is total — it is a plain function returning
bytes for every input name — and for each dot-separated label it emits
the label's byte length reduced modulo 256 followed by the label's bytes
(`encLabels`), then a zero terminator; a 300-byte label is thus silently
mis-encoded with length byte `44 = 300 % 256` rather than rejected. -/
theorem c10_encode_name_total_mod256 :
    (∀ name, encode_dns_name name = encLabels (splitDot name) ++ [0]) ∧
    encode_dns_name (List.replicate 300 97) =
      44 :: (List.replicate 300 97 ++ [0]) := by
  constructor
  · exact encode_dns_name_eq
  · decide

/-- C5 counterexample: the name consisting of one 192-byte label (192
letters `a`) has every dot-separated label at most 255 bytes long, yet
encode-then-decode does not return the name: the length byte 192 has its
top two bits set, so the decoder misreads it as a compression pointer and
fails. -/
theorem c5_counterexample :
    splitDot (List.replicate 192 97) = [List.replicate 192 97] ∧
    decode_dns_name (encode_dns_name (List.replicate 192 97))
      (encode_dns_name (List.replicate 192 97)) = .err .backtrack := by
  constructor <;> decide

/-- C5 (amended): encode-then-decode round-trips every name whose
dot-separated labels are nonempty and at most 191 bytes each (192 to 255
would collide with the pointer tag bits), with at most 126 labels (the
decoder's depth bound counts labels). -/
theorem c5_encode_decode_roundtrip (name : List Nat) (h : GoodName name) :
    decode_dns_name (encode_dns_name name) (encode_dns_name name) = .ok [] name := by
  obtain ⟨hl, hc⟩ := h
  rw [encode_dns_name_eq]
  have hd := decode_dns_name_encLabels (splitDot name) []
    (encLabels (splitDot name) ++ [0]) hl hc
  rw [joinDot_splitDot] at hd
  exact hd

/-- C5 witness: the round trip at the concrete name `"google.com"`. -/
theorem c5_encode_decode_roundtrip_witness :
    decode_dns_name (encode_dns_name googleName) (encode_dns_name googleName) =
      .ok [] googleName :=
  c5_encode_decode_roundtrip googleName (by decide)

/-- C4: for every valid domain name (nonempty labels of at most 63 bytes,
at most 126 labels), supported record type and 16-bit transaction id,
decoding the message produced by `build_query` succeeds and yields exactly
the header `(id, flags 0, 1 question, 0 answers/authorities/additionals)`
and the single question `(name, type, class IN)`, with empty record
sections. -/
theorem c4_decode_encode_query_roundtrip (name : List Nat) (ty : QueryType) (id : Nat)
    (hname : ValidDnsName name) (hid : id < 65536) :
    Response.parse (build_query name ty id) =
      .ok ⟨⟨id, 0, 1, 0, 0, 0⟩, [⟨name, ty, .IN⟩], [], [], []⟩ := by
  obtain ⟨hl, hc⟩ := hname
  have hgood : GoodName name :=
    ⟨fun l hl' => ⟨(hl l hl').1, by have := (hl l hl').2; omega⟩, hc⟩
  have hq : ∀ full, Question.parse (Question.asBytes ⟨name, ty, .IN⟩) full =
      .ok [] ⟨name, ty, .IN⟩ := by
    intro full
    have := question_parse_asBytes ⟨name, ty, .IN⟩ [] full hgood
    simpa using this
  unfold build_query
  simp only [Response.parse]
  rw [header_parse_asBytes _ _ hid (by norm_num) (by norm_num) (by norm_num)
    (by norm_num) (by norm_num)]
  simp only [prepeat, hq]
  simp

/-- C4 witness: the round trip at `("google.com", A, 1)`. -/
theorem c4_decode_encode_query_roundtrip_witness :
    Response.parse (build_query googleName .A 1) =
      .ok ⟨⟨1, 0, 1, 0, 0, 0⟩, [⟨googleName, .A, .IN⟩], [], [], []⟩ :=
  c4_decode_encode_query_roundtrip googleName .A 1 (by decide) (by decide)

/-- C6: whenever message decode succeeds, each of the four header counts
equals the number of entries decoded into the corresponding section; and a
count disagreeing with the entries actually present is a decode error,
shown in both directions: a header claiming one question over an empty
body fails, and a header claiming zero entries over a buffer that still
contains a question fails (winnow's top-level `parse` rejects unconsumed
input). -/
theorem c6_counts_match_sections :
    (∀ input resp, Response.parse input = .ok resp →
      resp.header.num_questions = resp.questions.length ∧
      resp.header.num_answers = resp.answers.length ∧
      resp.header.num_authorities = resp.authorities.length ∧
      resp.header.num_additionals = resp.additionals.length) ∧
    (Response.parse [0, 0, 0, 0, 0, 1, 0, 0, 0, 0, 0, 0]).isErr = true ∧
    (Response.parse
      [0, 0, 0, 0, 0, 0, 0, 0, 0, 0, 0, 0, 1, 97, 0, 0, 1, 0, 1]).isErr = true := by
  refine ⟨?_, by decide, by decide⟩
  intro input resp h
  simp only [Response.parse] at h
  cases h1 : Header.parse input with
  | ok remaining header =>
    rw [h1] at h
    dsimp only at h
    cases h2 : prepeat header.num_questions (fun x => Question.parse x input) remaining with
    | ok rq questions =>
      rw [h2] at h
      dsimp only at h
      cases h3 : prepeat header.num_answers (fun x => Record.parse x input) rq with
      | ok ra answers =>
        rw [h3] at h
        dsimp only at h
        cases h4 : prepeat header.num_authorities (fun x => Record.parse x input) ra with
        | ok rauth authorities =>
          rw [h4] at h
          dsimp only at h
          cases h5 : prepeat header.num_additionals (fun x => Record.parse x input) rauth with
          | ok radd additionals =>
            rw [h5] at h
            dsimp only at h
            by_cases h6 : radd = []
            · rw [if_pos h6] at h
              cases h
              exact ⟨(prepeat_length _ _ _ _ _ h2).symm, (prepeat_length _ _ _ _ _ h3).symm,
                (prepeat_length _ _ _ _ _ h4).symm, (prepeat_length _ _ _ _ _ h5).symm⟩
            · rw [if_neg h6] at h
              exact DResult.noConfusion h
          | err e =>
            rw [h5] at h
            exact DResult.noConfusion h
          | panic =>
            rw [h5] at h
            exact DResult.noConfusion h
        | err e =>
          rw [h4] at h
          exact DResult.noConfusion h
        | panic =>
          rw [h4] at h
          exact DResult.noConfusion h
      | err e =>
        rw [h3] at h
        exact DResult.noConfusion h
      | panic =>
        rw [h3] at h
        exact DResult.noConfusion h
    | err e =>
      rw [h2] at h
      exact DResult.noConfusion h
    | panic =>
      rw [h2] at h
      exact DResult.noConfusion h
  | err e =>
    rw [h1] at h
    exact DResult.noConfusion h
  | panic =>
    rw [h1] at h
    exact DResult.noConfusion h

/-- C6 witness: decoding twelve zero bytes succeeds with all counts equal
to the (empty) section lengths. -/
theorem c6_counts_match_sections_witness :
    emptyResponse.header.num_questions = emptyResponse.questions.length ∧
    emptyResponse.header.num_answers = emptyResponse.answers.length ∧
    emptyResponse.header.num_authorities = emptyResponse.authorities.length ∧
    emptyResponse.header.num_additionals = emptyResponse.additionals.length :=
  c6_counts_match_sections.1 [0, 0, 0, 0, 0, 0, 0, 0, 0, 0, 0, 0] emptyResponse (by decide)

/-- C7: a resource record whose declared 16-bit rdata length exceeds the
bytes remaining after it fails `Record::parse` with the truncation
(backtrack) error — no partial record is produced, as the result type
carries no data in the error case — and any such record aborts the whole
message decode, shown on a message declaring one answer whose rdata claims
4 bytes with only 2 present. -/
theorem c7_rdata_truncation_aborts :
    (∀ input full nm t1 t2 k1 k2 b1 b2 b3 b4 l1 l2 rest ty cls,
      decode_dns_name input full =
        .ok (t1 :: t2 :: k1 :: k2 :: b1 :: b2 :: b3 :: b4 :: l1 :: l2 :: rest) nm →
      QueryType.ofCode (t1 * 256 + t2) = some ty →
      ClassType.ofCode (k1 * 256 + k2) = some cls →
      rest.length < l1 * 256 + l2 →
      Record.parse input full = .err .backtrack) ∧
    (Response.parse
      [0, 0, 0, 0, 0, 0, 0, 1, 0, 0, 0, 0,
       1, 97, 0, 0, 1, 0, 1, 0, 0, 0, 0, 0, 4, 1, 2]).isErr = true := by
  refine ⟨?_, by decide⟩
  intro input full nm t1 t2 k1 k2 b1 b2 b3 b4 l1 l2 rest ty cls hname hty hcls hlen
  simp only [Record.parse, hname, parse_be_u16, parse_be_u32, hty, hcls, hlen, if_true]

/-- C7 witness: the truncated A record `a/IN/A` with declared rdata length
4 over a 2-byte payload fails with the truncation error. -/
theorem c7_rdata_truncation_aborts_witness :
    Record.parse [1, 97, 0, 0, 1, 0, 1, 0, 0, 0, 0, 0, 4, 1, 2]
      [1, 97, 0, 0, 1, 0, 1, 0, 0, 0, 0, 0, 4, 1, 2] = .err .backtrack :=
  c7_rdata_truncation_aborts.1 [1, 97, 0, 0, 1, 0, 1, 0, 0, 0, 0, 0, 4, 1, 2]
    [1, 97, 0, 0, 1, 0, 1, 0, 0, 0, 0, 0, 4, 1, 2] [97] 0 1 0 1 0 0 0 0 0 4 [1, 2]
    .A .IN (by decide) (by decide) (by decide) (by decide)

/-- C9: if a queried response's answer section contains no record of the
target type, its additional section no A record, and its authority section
no NS record, the resolver loop terminates at once with the
"Unable to resolve query!" resolution error instead of issuing further
queries or looping. -/
theorem c9_resolver_dead_end
    (oracle : Ipv4 → List Nat → QueryType → DResult Response) (root : Ipv4)
    (fuel : Nat) (ns : Ipv4) (nm : List Nat) (ty : QueryType) (resp : Response)
    (ho : oracle ns nm ty = .ok resp)
    (h1 : ∀ r ∈ resp.answers, r.ty.toQueryType ≠ ty)
    (h2 : ∀ r ∈ resp.additionals, additional_a r = none)
    (h3 : ∀ r ∈ resp.authorities, authority_ns r = none) :
    resolve_loop oracle root (fuel + 1) ns nm ty = .error .unableToResolve := by
  have hfind : resp.answers.find? (answer_matches ty) = none :=
    List.find?_eq_none.2 fun x hx => by simp [answer_matches, h1 x hx]
  have hadd : resp.additionals.findSome? additional_a = none :=
    List.findSome?_eq_none_iff.2 h2
  have hauth : resp.authorities.findSome? authority_ns = none :=
    List.findSome?_eq_none_iff.2 h3
  simp only [resolve_loop, ho, hfind, hadd, hauth]

/-- C9 witness: a response with empty sections makes the resolver fail
with the unable-to-resolve error at a concrete state. -/
theorem c9_resolver_dead_end_witness :
    resolve_loop (fun _ _ _ => .ok emptyResponse) ⟨0, 0, 0, 0⟩
      1 ⟨0, 0, 0, 0⟩ [] .A = .error .unableToResolve :=
  c9_resolver_dead_end _ _ 0 _ _ _ emptyResponse rfl (by simp [emptyResponse])
    (by simp [emptyResponse]) (by simp [emptyResponse])
